import Mathlib

/-!
Verification of the A1 range-notation layer of `gsheets/sheets_tools.py`.

The embedding models the two helper functions `_convert_indices_to_a1` and
`_parse_a1_to_indices`, the merged-region overlap test inside
`read_sheet_values`, and the cell-count expressions of `format_cells` /
`add_data_validation`.  Strings are modelled as `List Char` with ASCII
character classes (the Python regexes `[A-Z]` and `\d` on the inputs of
interest), Python integers as `Int`/`Nat`.
-/

/-- Character class of the regex `[A-Z]` (code points 65–90). -/
def isUp (c : Char) : Bool := decide (65 ≤ c.toNat ∧ c.toNat ≤ 90)

/-- Character class of the regex `\d`, restricted to ASCII digits 0–9.
CPython's `\d` on str patterns also matches non-ASCII Unicode decimal digits;
on ASCII characters the two classes agree, so theorems whose truth depends on
where a digit run stops carry an explicit ASCII hypothesis at that boundary
character. -/
def isDig (c : Char) : Bool := decide (48 ≤ c.toNat ∧ c.toNat ≤ 57)

/-- `int()` applied to a digit string, as the value of its decimal digits. -/
def digitsToNat (ds : List Char) : Nat :=
  ds.foldl (fun a c => a * 10 + (c.toNat - 48)) 0

/-- Helper for `colVal`: the running index `i` of Python's
`enumerate(reversed(col))`, summing `(ord(c) - 65) * 26 ** i`. -/
def colValAux : Nat → List Char → Int
  | _, [] => 0
  | i, c :: cs => ((c.toNat : Int) - 65) * 26 ^ i + colValAux (i + 1) cs

/-- Column-letter decoding of `_parse_a1_to_indices`:
`sum((ord(c) - 65) * (26 ** i) for i, c in enumerate(reversed(col)))`. -/
def colVal (cs : List Char) : Int := colValAux 0 cs.reverse

/-- One greedy token of a character class: the regex piece `([A-Z]+)` or
`(\d+)` — at least one character, maximal run, returning (token, rest). -/
def takeTok (p : Char → Bool) (s : List Char) : Option (List Char × List Char) :=
  if (s.takeWhile p).isEmpty then none else some (s.takeWhile p, s.dropWhile p)

/-- The regex `([A-Z]+)(\d+):([A-Z]+)(\d+)` applied with `re.match` (anchored
at the start, not at the end).  Greedy matching of the disjoint classes
`[A-Z]` and `\d` is exactly maximal-munch, so the four groups are the maximal
runs.  Returns the four groups. -/
def matchRange (s : List Char) : Option (List Char × List Char × List Char × List Char) :=
  (takeTok isUp s).bind fun p1 =>
  (takeTok isDig p1.2).bind fun p2 =>
  match p2.2 with
  | [] => none
  | c :: s3 =>
    if c = ':' then
      (takeTok isUp s3).bind fun p3 =>
      (takeTok isDig p3.2).bind fun p4 =>
      some (p1.1, p2.1, p3.1, p4.1)
    else none

/-- The fallback regex `([A-Z]+)(\d+)` applied with `re.match`. -/
def matchCell (s : List Char) : Option (List Char × List Char) :=
  (takeTok isUp s).bind fun p1 =>
  (takeTok isDig p1.2).bind fun p2 =>
  some (p1.1, p2.1)

/-- The span part of `_parse_a1_to_indices` (after the sheet split): tries the
range regex first, then the single-cell regex; yields
(startRow, endRow, startCol, endCol), zero-based half-open, or `none` when
both regexes fail (the Python code returns `None` four times). -/
def spanCoords (s : List Char) : Option (Int × Int × Int × Int) :=
  match matchRange s with
  | some (L1, D1, L2, D2) =>
      some ((digitsToNat D1 : Int) - 1, (digitsToNat D2 : Int),
            colVal L1, colVal L2 + 1)
  | none =>
      match matchCell s with
      | some (L, D) =>
          some ((digitsToNat D : Int) - 1, (digitsToNat D : Int),
                colVal L, colVal L + 1)
      | none => none

/-- Python's `s.split('!', 1)`: the part before the first `'!'` and the part
after it (the whole string and `[]` when no `'!'` occurs). -/
def splitBang : List Char → List Char × List Char
  | [] => ([], [])
  | c :: cs =>
    if c = '!' then ([], cs)
    else
      let r := splitBang cs
      (c :: r.1, r.2)

/-- `_parse_a1_to_indices`: splits off a sheet name at the first `'!'` when
one is present, then parses the remainder as a span.  First component is the
sheet name (`None` when the input has no `'!'`), second the coordinates. -/
def parse_a1_to_indices (s : List Char) :
    Option (List Char) × Option (Int × Int × Int × Int) :=
  if s.contains '!' then
    (some (splitBang s).1, spanCoords (splitBang s).2)
  else
    (none, spanCoords s)

/-- `col_to_letter` inside `_convert_indices_to_a1`: one letter for column
indices below 26, otherwise `chr(65 + col // 26 - 1)` followed by
`chr(65 + col % 26)`. -/
def col_to_letter (col : Nat) : List Char :=
  if col < 26 then [Char.ofNat (65 + col)]
  else [Char.ofNat (65 + col / 26 - 1), Char.ofNat (65 + col % 26)]

/-- Decimal digits of a natural number, as in Python's f-string formatting. -/
def natDigits (n : Nat) : List Char := Nat.toDigits 10 n

/-- `_convert_indices_to_a1`: builds
`f"{col_letter(start_col)}{start_row + 1}:{col_letter(end_col - 1)}{end_row}"`. -/
def convert_indices_to_a1 (start_row end_row start_col end_col : Nat) : List Char :=
  col_to_letter start_col ++ natDigits (start_row + 1) ++
    [':'] ++ col_to_letter (end_col - 1) ++ natDigits end_row

/-- A zero-based half-open rectangle of grid coordinates. -/
structure GridRect where
  startRow : Int
  endRow : Int
  startCol : Int
  endCol : Int
deriving DecidableEq, Repr

/-- The merged-region filter condition of `read_sheet_values`
(`m_start_row < end_row_idx and m_end_row > start_row_idx and
m_start_col < end_col_idx and m_end_col > start_col_idx`), with `r` the
parsed read range and `m` the merged region. -/
def mergeOverlapsRange (r m : GridRect) : Bool :=
  m.startRow < r.endRow && m.endRow > r.startRow &&
  m.startCol < r.endCol && m.endCol > r.startCol

/-- The cell-count expression of `format_cells` and `add_data_validation`:
`(end_row_idx - start_row_idx) * (end_col_idx - start_col_idx)`. -/
def cellCount (r : GridRect) : Int :=
  (r.endRow - r.startRow) * (r.endCol - r.startCol)

-- Grounding checks against the worked examples of the specification.
example : parse_a1_to_indices ['B', '2'] = (none, some (1, 2, 1, 2)) := by decide
example :
    parse_a1_to_indices ['S', 'h', 'e', 'e', 't', '1', '!', 'A', '1', ':', 'C', '4'] =
      (some ['S', 'h', 'e', 'e', 't', '1'], some (0, 4, 0, 3)) := by decide
example : convert_indices_to_a1 0 4 0 3 = ['A', '1', ':', 'C', '4'] := by decide
example : mergeOverlapsRange ⟨0, 3, 0, 2⟩ ⟨2, 5, 1, 4⟩ = true := by decide
example : mergeOverlapsRange ⟨0, 2, 0, 2⟩ ⟨2, 4, 0, 2⟩ = false := by decide

/-- Unfolding equation of `colValAux` on a cons cell. -/
theorem colValAux_cons (i : Nat) (c : Char) (cs : List Char) :
    colValAux i (c :: cs) = ((c.toNat : Int) - 65) * 26 ^ i + colValAux (i + 1) cs := rfl

/-- Splitting the running-index sum of `colValAux` across an append. -/
theorem colValAux_append (i : Nat) (l1 l2 : List Char) :
    colValAux i (l1 ++ l2) = colValAux i l1 + colValAux (i + l1.length) l2 := by
  induction l1 generalizing i with
  | nil => simp [colValAux]
  | cons a l1 ih =>
    rw [List.cons_append, colValAux_cons, colValAux_cons, ih (i + 1), List.length_cons,
      show i + 1 + l1.length = i + (l1.length + 1) by omega]
    ring

/-- Peeling the leading letter off the decoded column value. -/
theorem colVal_cons (c : Char) (cs : List Char) :
    colVal (c :: cs) = ((c.toNat : Int) - 65) * 26 ^ cs.length + colVal cs := by
  unfold colVal
  rw [List.reverse_cons, colValAux_append]
  simp [colValAux, List.length_reverse]
  ring

/-- Claim C3: the decoded column index of a letter token `c_0 … c_{n-1}` is
the positional base-26 value `Σ_i (ord c_i - 65) · 26^(n-1-i)` — the value of
the code's reversed-enumeration sum read most-significant-letter first. -/
theorem colVal_eq_positional_sum (cs : List Char) :
    colVal cs = ∑ i in Finset.range cs.length,
      (((cs.getD i 'A').toNat : Int) - 65) * 26 ^ (cs.length - 1 - i) := by
  induction cs with
  | nil => simp [colVal, colValAux]
  | cons c cs ih =>
    rw [colVal_cons, ih, List.length_cons, Finset.sum_range_succ', add_comm]
    congr 1
    apply Finset.sum_congr rfl
    intro i hi
    rw [List.getD_cons_succ,
      show cs.length + 1 - 1 - (i + 1) = cs.length - 1 - i by omega]

/-- Claim C1 (code bug): the round trip `decode(encode(g)) = g` fails inside
the claimed bound: for `g = (startRow 0, endRow 1, startCol 26, endCol 27)`
the encoder emits `"AA1:AA1"`, but the decoder maps the column token `"AA"`
to `0`, so the decoded rectangle is `(0, 1, 0, 1)`, not `g`. -/
theorem roundtrip_violation :
    convert_indices_to_a1 0 1 26 27 = ['A', 'A', '1', ':', 'A', 'A', '1'] ∧
    parse_a1_to_indices (convert_indices_to_a1 0 1 26 27) =
      (none, some (0, 1, 0, 1)) ∧
    ((0 : Int), (1 : Int), (0 : Int), (1 : Int)) ≠
      ((0 : Int), (1 : Int), (26 : Int), (27 : Int)) := by
  refine ⟨by decide, by decide, by decide⟩

/-- Claim C2: the merged-region filter of `read_sheet_values` classifies `m`
as affecting the read range `r` exactly when `r.startRow < m.endRow`,
`r.endRow > m.startRow`, `r.startCol < m.endCol` and `r.endCol > m.startCol`
— exact half-open rectangle intersection, so rectangles sharing only a
boundary edge are not reported. -/
theorem merge_overlap_iff (r m : GridRect) :
    mergeOverlapsRange r m = true ↔
      (r.startRow < m.endRow ∧ r.endRow > m.startRow ∧
       r.startCol < m.endCol ∧ r.endCol > m.startCol) := by
  simp only [mergeOverlapsRange, Bool.and_eq_true, decide_eq_true_eq]
  constructor
  · rintro ⟨⟨⟨h1, h2⟩, h3⟩, h4⟩
    exact ⟨h2, h1, h4, h3⟩
  · rintro ⟨h1, h2, h3, h4⟩
    exact ⟨⟨⟨h2, h1⟩, h4⟩, h3⟩

/-- Claim C4 (code bug): the decoder maps `"A1"` and `"Z1"` to columns 0 and
25 as claimed, but `"AA1"`, `"AZ1"`, `"BA1"` decode to columns 0, 25, 26
instead of the claimed 26, 51, 52: the decoder evaluates multi-letter tokens
as plain positional base-26 with A=0, missing the bijective offset that the
encoder in the same file uses (it emits `"AA"` for column 26). -/
theorem decode_multi_letter_columns :
    (parse_a1_to_indices ['A', '1']).2 = some (0, 1, 0, 1) ∧
    (parse_a1_to_indices ['Z', '1']).2 = some (0, 1, 25, 26) ∧
    (parse_a1_to_indices ['A', 'A', '1']).2 = some (0, 1, 0, 1) ∧
    (parse_a1_to_indices ['A', 'Z', '1']).2 = some (0, 1, 25, 26) ∧
    (parse_a1_to_indices ['B', 'A', '1']).2 = some (0, 1, 26, 27) := by
  refine ⟨by decide, by decide, by decide, by decide, by decide⟩

/-- Claim C5, counterexample: decoding `"A0"` does not signal any error — it
returns the coordinates `(startRow -1, endRow 0, startCol 0, endCol 1)`,
refuting the claim that all three malformed inputs are rejected. -/
theorem parse_A0_returns_coordinates :
    (parse_a1_to_indices ['A', '0']).2 = some (-1, 0, 0, 1) := by decide

/-- Claim C5, amended: there is no `InvalidRangeError` anywhere in the code;
`""` and `"1A"` report failure by returning `None` in place of all four
coordinates (no exception is raised), while `"A0"` is accepted and yields
`(startRow -1, endRow 0, startCol 0, endCol 1)`. -/
theorem malformed_inputs_behavior :
    parse_a1_to_indices [] = (none, none) ∧
    parse_a1_to_indices ['1', 'A'] = (none, none) ∧
    parse_a1_to_indices ['A', '0'] = (none, some (-1, 0, 0, 1)) := by
  refine ⟨by decide, by decide, by decide⟩

/-- Claim C6, counterexample: the reversed two-corner range `"B5:A2"` parses
successfully to `(startRow 4, endRow 2, startCol 1, endCol 1)`, violating
both `endRow > startRow` and `endCol > startCol`. -/
theorem reversed_range_parses :
    (parse_a1_to_indices ['B', '5', ':', 'A', '2']).2 = some (4, 2, 1, 1) ∧
    ¬((2 : Int) > 4 ∧ (1 : Int) > 1) := by
  refine ⟨by decide, by decide⟩

/-- Inversion for one greedy token: it satisfies the class and is nonempty. -/
theorem takeTok_inv {p : Char → Bool} {s t r : List Char}
    (h : takeTok p s = some (t, r)) : (∀ c ∈ t, p c = true) ∧ t ≠ [] := by
  unfold takeTok at h
  split at h
  · exact Option.noConfusion h
  · rename_i hne
    rw [Option.some.injEq, Prod.mk.injEq] at h
    obtain ⟨rfl, rfl⟩ := h
    refine ⟨fun c hc => List.mem_takeWhile_imp hc, ?_⟩
    intro hnil
    rw [hnil] at hne
    exact hne rfl

/-- Inversion for the range regex: both column groups are uppercase runs. -/
theorem matchRange_inv {s L1 D1 L2 D2 : List Char}
    (h : matchRange s = some (L1, D1, L2, D2)) :
    (∀ c ∈ L1, isUp c = true) ∧ (∀ c ∈ L2, isUp c = true) := by
  unfold matchRange at h
  simp only [Option.bind_eq_some] at h
  obtain ⟨p1, hp1, h⟩ := h
  obtain ⟨p2, hp2, h⟩ := h
  split at h
  · exact Option.noConfusion h
  · split at h
    · simp only [Option.bind_eq_some] at h
      obtain ⟨p3, hp3, h⟩ := h
      obtain ⟨p4, hp4, h⟩ := h
      rw [Option.some.injEq, Prod.mk.injEq, Prod.mk.injEq, Prod.mk.injEq] at h
      obtain ⟨h1, h2, h3, h4⟩ := h
      subst h1; subst h3
      exact ⟨(takeTok_inv hp1).1, (takeTok_inv hp3).1⟩
    · exact Option.noConfusion h

/-- Inversion for the single-cell regex: the column group is uppercase. -/
theorem matchCell_inv {s L D : List Char}
    (h : matchCell s = some (L, D)) : ∀ c ∈ L, isUp c = true := by
  unfold matchCell at h
  simp only [Option.bind_eq_some] at h
  obtain ⟨p1, hp1, h⟩ := h
  obtain ⟨p2, hp2, h⟩ := h
  rw [Option.some.injEq, Prod.mk.injEq] at h
  obtain ⟨h1, h2⟩ := h
  subst h1
  exact (takeTok_inv hp1).1

/-- The running sum of uppercase letter values is non-negative. -/
theorem colValAux_nonneg (i : Nat) (cs : List Char)
    (h : ∀ c ∈ cs, isUp c = true) : 0 ≤ colValAux i cs := by
  induction cs generalizing i with
  | nil => simp [colValAux]
  | cons c cs ih =>
    have hc : 65 ≤ c.toNat ∧ c.toNat ≤ 90 := by
      simpa [isUp] using h c (List.mem_cons_self c cs)
    have h65 : (65 : Int) ≤ (c.toNat : Int) := by exact_mod_cast hc.1
    have h1 : 0 ≤ ((c.toNat : Int) - 65) * 26 ^ i :=
      mul_nonneg (by omega) (by positivity)
    have h2 := ih (i + 1) (fun d hd => h d (List.mem_cons_of_mem c hd))
    rw [colValAux_cons]
    exact add_nonneg h1 h2

/-- The decoded value of an uppercase letter token is non-negative. -/
theorem colVal_nonneg {cs : List Char} (h : ∀ c ∈ cs, isUp c = true) :
    0 ≤ colVal cs :=
  colValAux_nonneg 0 cs.reverse (fun c hc => h c (List.mem_reverse.mp hc))

/-- Bounds satisfied by every successful span parse. -/
theorem spanCoords_bounds {s : List Char} {r : Int × Int × Int × Int}
    (h : spanCoords s = some r) :
    -1 ≤ r.1 ∧ 0 ≤ r.2.1 ∧ 0 ≤ r.2.2.1 ∧ 1 ≤ r.2.2.2 := by
  obtain ⟨r1, r2, r3, r4⟩ := r
  show -1 ≤ r1 ∧ 0 ≤ r2 ∧ 0 ≤ r3 ∧ 1 ≤ r4
  unfold spanCoords at h
  split at h
  · rename_i L1 D1 L2 D2 heq
    rw [Option.some.injEq, Prod.mk.injEq, Prod.mk.injEq, Prod.mk.injEq] at h
    obtain ⟨h1, h2, h3, h4⟩ := h
    subst h1; subst h2; subst h3; subst h4
    have hm := matchRange_inv heq
    have hv1 := colVal_nonneg hm.1
    have hv2 := colVal_nonneg hm.2
    refine ⟨by omega, by omega, hv1, by omega⟩
  · split at h
    · rename_i L D heq2
      rw [Option.some.injEq, Prod.mk.injEq, Prod.mk.injEq, Prod.mk.injEq] at h
      obtain ⟨h1, h2, h3, h4⟩ := h
      subst h1; subst h2; subst h3; subst h4
      have hv := colVal_nonneg (matchCell_inv heq2)
      refine ⟨by omega, by omega, hv, by omega⟩
    · exact Option.noConfusion h

/-- Claim C6, amended: every input on which the parser succeeds yields
`startRow ≥ -1`, `endRow ≥ 0`, `startCol ≥ 0` and `endCol ≥ 1`; the original
non-negativity of `startRow` fails on `"A0"` and the strict orderings
`endRow > startRow`, `endCol > startCol` fail on reversed two-corner ranges
such as `"B5:A2"`. -/
theorem parse_bounds (s : List Char) (r : Int × Int × Int × Int)
    (h : (parse_a1_to_indices s).2 = some r) :
    -1 ≤ r.1 ∧ 0 ≤ r.2.1 ∧ 0 ≤ r.2.2.1 ∧ 1 ≤ r.2.2.2 := by
  unfold parse_a1_to_indices at h
  split at h
  · exact spanCoords_bounds h
  · exact spanCoords_bounds h

/-- Witness for the amended C6: the bounds hold for the parse of `"A1"`. -/
theorem parse_bounds_witness :
    (parse_a1_to_indices ['A', '1']).2 = some (0, 1, 0, 1) ∧
    (-1 ≤ (0 : Int) ∧ 0 ≤ (1 : Int) ∧ 0 ≤ (0 : Int) ∧ 1 ≤ (1 : Int)) :=
  ⟨by decide, parse_bounds ['A', '1'] (0, 1, 0, 1) (by decide)⟩

/-- Claim C7, counterexample: for `"A!B!C1"` the code takes the substring
before the first `'!'` as the sheet name, returning `"A"`, not the substring
`"A!B"` before the last `'!'` that the claim prescribes. -/
theorem sheet_split_counterexample :
    (parse_a1_to_indices ['A', '!', 'B', '!', 'C', '1']).1 = some ['A'] ∧
    (['A'] : List Char) ≠ ['A', '!', 'B'] := by
  refine ⟨by decide, by decide⟩

/-- The part of the input before the first `'!'`. -/
theorem splitBang_fst (s : List Char) :
    (splitBang s).1 = s.takeWhile (fun c => c != '!') := by
  induction s with
  | nil => rfl
  | cons c cs ih =>
    by_cases hc : c = '!'
    · subst hc
      simp [splitBang]
    · simp [splitBang, hc, ih]

/-- The part of the input after the first `'!'`. -/
theorem splitBang_snd (s : List Char) :
    (splitBang s).2 = (s.dropWhile (fun c => c != '!')).tail := by
  induction s with
  | nil => rfl
  | cons c cs ih =>
    by_cases hc : c = '!'
    · subst hc
      simp [splitBang]
    · simp [splitBang, hc, ih]

/-- Claim C7, amended: for every input containing a `'!'`, the sheet name is
the substring before the FIRST `'!'` (not the last) and the remainder after
that `'!'` is parsed as the cell span; without any `'!'` the sheet name is
`None` and the whole input is the span. -/
theorem sheet_split_first (s : List Char) :
    (s.contains '!' = true →
      parse_a1_to_indices s =
        (some (s.takeWhile (fun c => c != '!')),
         spanCoords ((s.dropWhile (fun c => c != '!')).tail))) ∧
    (s.contains '!' = false →
      parse_a1_to_indices s = (none, spanCoords s)) := by
  constructor
  · intro hc
    unfold parse_a1_to_indices
    rw [hc]
    simp [splitBang_fst, splitBang_snd]
  · intro hc
    unfold parse_a1_to_indices
    rw [hc]
    simp

/-- Witness for the amended C7: the split at the first `'!'` on `"S!A1"` and
the absent sheet name on `"A1"`. -/
theorem sheet_split_first_witness :
    parse_a1_to_indices ['S', '!', 'A', '1'] =
      (some ['S'], spanCoords ['A', '1']) ∧
    parse_a1_to_indices ['A', '1'] = (none, spanCoords ['A', '1']) := by
  constructor
  · exact ((sheet_split_first ['S', '!', 'A', '1']).1 (by decide)).trans (by decide)
  · exact (sheet_split_first ['A', '1']).2 (by decide)

/-- Claim C9, amended: the codec is case-sensitive: a span whose first
character is a lowercase letter (code points 97–122) never parses — both
regexes require an uppercase `[A-Z]` first — while the uppercase form
succeeds; no normalization to uppercase takes place anywhere. -/
theorem lowercase_span_fails (c : Char) (t : List Char)
    (h1 : 97 ≤ c.toNat) (h2 : c.toNat ≤ 122) :
    spanCoords (c :: t) = none := by
  have hup : ¬ isUp c = true := by
    simp only [isUp, decide_eq_true_eq]
    omega
  have htk : takeTok isUp (c :: t) = none := by
    unfold takeTok
    rw [List.takeWhile_cons_of_neg hup]
    simp
  simp [spanCoords, matchRange, matchCell, htk]

/-- Witness for the amended C9: the lowercase span `"b2"` fails to parse. -/
theorem lowercase_span_fails_witness : spanCoords ['b', '2'] = none :=
  lowercase_span_fails 'b' ['2'] (by decide) (by decide)

/-- Claim C8: for every rectangle with `startRow ≤ endRow` and
`startCol ≤ endCol` the reported cell count
`(endRow - startRow) * (endCol - startCol)` is non-negative, and on
`(startRow 0, endRow 5, startCol 0, endCol 3)` it equals 15. -/
theorem cellCount_spec :
    (∀ r : GridRect, r.startRow ≤ r.endRow → r.startCol ≤ r.endCol →
      0 ≤ cellCount r) ∧
    cellCount ⟨0, 5, 0, 3⟩ = 15 := by
  constructor
  · intro r h1 h2
    exact mul_nonneg (by omega) (by omega)
  · decide

/-- Witness for C8: the general part applied to the concrete rectangle of the
claim, whose count also evaluates to 15. -/
theorem cellCount_spec_witness :
    0 ≤ cellCount ⟨0, 5, 0, 3⟩ ∧ cellCount ⟨0, 5, 0, 3⟩ = 15 :=
  ⟨cellCount_spec.1 ⟨0, 5, 0, 3⟩ (by decide) (by decide), cellCount_spec.2⟩

/-- Claim C9, counterexample: the lowercase span `"b2"` yields no coordinates
while its uppercase form `"B2"` decodes to `(1, 2, 1, 2)` — the regexes only
accept `[A-Z]` and the code never normalizes case. -/
theorem lowercase_rejected :
    (parse_a1_to_indices ['b', '2']).2 = none ∧
    (parse_a1_to_indices ['B', '2']).2 = some (1, 2, 1, 2) := by
  refine ⟨by decide, by decide⟩

/-- Claim C10, counterexample: `"A12"` begins with the well-formed single
cell `"A1"`, yet it parses to row 12 (coordinates `(11, 12, 0, 1)`) rather
than to the parse `(0, 1, 0, 1)` of the prefix `"A1"` — a trailing digit
extends the greedy row token instead of being ignored. -/
theorem trailing_digit_changes_result :
    (parse_a1_to_indices ['A', '1']).2 = some (0, 1, 0, 1) ∧
    (parse_a1_to_indices ['A', '1', '2']).2 = some (11, 12, 0, 1) ∧
    parse_a1_to_indices ['A', '1', '2'] ≠ parse_a1_to_indices ['A', '1'] := by
  refine ⟨by decide, by decide, by decide⟩

/-- A greedy run stops exactly at the end of an all-class front segment when
the next character (default `'!'`) is outside the class. -/
theorem takeWhile_app_exact (p : Char → Bool) (l1 l2 : List Char)
    (h1 : ∀ c ∈ l1, p c = true) (h2 : p (l2.headD '!') = false) :
    (l1 ++ l2).takeWhile p = l1 := by
  induction l1 with
  | nil =>
    cases l2 with
    | nil => rfl
    | cons a t =>
      rw [List.nil_append, List.takeWhile_cons_of_neg]
      rw [List.headD_cons] at h2
      simp [h2]
  | cons a l1 ih =>
    rw [List.cons_append,
      List.takeWhile_cons_of_pos (h1 a (List.mem_cons_self a l1)),
      ih (fun c hc => h1 c (List.mem_cons_of_mem a hc))]

/-- Companion of `takeWhile_app_exact` for the rest of the input. -/
theorem dropWhile_app_exact (p : Char → Bool) (l1 l2 : List Char)
    (h1 : ∀ c ∈ l1, p c = true) (h2 : p (l2.headD '!') = false) :
    (l1 ++ l2).dropWhile p = l2 := by
  induction l1 with
  | nil =>
    cases l2 with
    | nil => rfl
    | cons a t =>
      rw [List.nil_append, List.dropWhile_cons_of_neg]
      rw [List.headD_cons] at h2
      simp [h2]
  | cons a l1 ih =>
    rw [List.cons_append,
      List.dropWhile_cons_of_pos (h1 a (List.mem_cons_self a l1)),
      ih (fun c hc => h1 c (List.mem_cons_of_mem a hc))]

/-- A token match consumes exactly an all-class nonempty front segment. -/
theorem takeTok_app (p : Char → Bool) (l1 l2 : List Char) (h0 : l1 ≠ [])
    (h1 : ∀ c ∈ l1, p c = true) (h2 : p (l2.headD '!') = false) :
    takeTok p (l1 ++ l2) = some (l1, l2) := by
  unfold takeTok
  rw [takeWhile_app_exact p l1 l2 h1 h2, dropWhile_app_exact p l1 l2 h1 h2]
  cases l1 with
  | nil => exact absurd rfl h0
  | cons a l1 => rfl

/-- An ASCII digit is not an uppercase letter. -/
theorem not_up_of_dig {c : Char} (h : isDig c = true) : isUp c = false := by
  simp only [isDig, decide_eq_true_eq] at h
  simp only [isUp, decide_eq_false_iff_not]
  omega

/-- An uppercase letter is not the `'!'` separator. -/
theorem ne_bang_of_up {c : Char} (h : isUp c = true) : c ≠ '!' := by
  intro he
  subst he
  exact absurd h (by decide)

/-- An ASCII digit is not the `'!'` separator. -/
theorem ne_bang_of_dig {c : Char} (h : isDig c = true) : c ≠ '!' := by
  intro he
  subst he
  exact absurd h (by decide)

/-- A string none of whose characters is `'!'` fails the sheet-split test. -/
theorem contains_bang_false {s : List Char} (h : ∀ c ∈ s, c ≠ '!') :
    s.contains '!' = false := by
  by_contra hc
  rw [Bool.not_eq_false] at hc
  have hm : '!' ∈ s := by simpa using hc
  exact h '!' hm rfl

/-- No character of a well-formed range span followed by a bang-free suffix
is `'!'`. -/
theorem span_no_bang (L1 D1 L2 D2 t : List Char)
    (hL1 : ∀ c ∈ L1, isUp c = true) (hD1 : ∀ c ∈ D1, isDig c = true)
    (hL2 : ∀ c ∈ L2, isUp c = true) (hD2 : ∀ c ∈ D2, isDig c = true)
    (hbang : ∀ c ∈ t, c ≠ '!') :
    (L1 ++ (D1 ++ (':' :: (L2 ++ (D2 ++ t))))).contains '!' = false := by
  apply contains_bang_false
  intro c hc
  simp only [List.mem_append, List.mem_cons] at hc
  rcases hc with h | h | h | h | h | h
  · exact ne_bang_of_up (hL1 c h)
  · exact ne_bang_of_dig (hD1 c h)
  · subst h; decide
  · exact ne_bang_of_up (hL2 c h)
  · exact ne_bang_of_dig (hD2 c h)
  · exact hbang c h

/-- No character of a well-formed cell span followed by a bang-free suffix
is `'!'`. -/
theorem cell_no_bang (L D t : List Char)
    (hL : ∀ c ∈ L, isUp c = true) (hD : ∀ c ∈ D, isDig c = true)
    (hbang : ∀ c ∈ t, c ≠ '!') :
    (L ++ (D ++ t)).contains '!' = false := by
  apply contains_bang_false
  intro c hc
  simp only [List.mem_append] at hc
  rcases hc with h | h | h
  · exact ne_bang_of_up (hL c h)
  · exact ne_bang_of_dig (hD c h)
  · exact hbang c h

/-- The range regex matches a well-formed range span and stops before any
suffix that does not begin with a digit. -/
theorem matchRange_concat (L1 D1 L2 D2 t : List Char)
    (hL1 : L1 ≠ [] ∧ ∀ c ∈ L1, isUp c = true)
    (hD1 : D1 ≠ [] ∧ ∀ c ∈ D1, isDig c = true)
    (hL2 : L2 ≠ [] ∧ ∀ c ∈ L2, isUp c = true)
    (hD2 : D2 ≠ [] ∧ ∀ c ∈ D2, isDig c = true)
    (ht : isDig (t.headD '!') = false) :
    matchRange (L1 ++ (D1 ++ (':' :: (L2 ++ (D2 ++ t))))) =
      some (L1, D1, L2, D2) := by
  have hD1head : isUp ((D1 ++ (':' :: (L2 ++ (D2 ++ t)))).headD '!') = false := by
    obtain ⟨d, D1x, rfl⟩ := List.exists_cons_of_ne_nil hD1.1
    simpa using not_up_of_dig (hD1.2 d (List.mem_cons_self d D1x))
  have hD2head : isUp ((D2 ++ t).headD '!') = false := by
    obtain ⟨d, D2x, rfl⟩ := List.exists_cons_of_ne_nil hD2.1
    simpa using not_up_of_dig (hD2.2 d (List.mem_cons_self d D2x))
  have t1 := takeTok_app isUp L1 (D1 ++ (':' :: (L2 ++ (D2 ++ t)))) hL1.1 hL1.2 hD1head
  have t2 : takeTok isDig (D1 ++ (':' :: (L2 ++ (D2 ++ t)))) =
      some (D1, ':' :: (L2 ++ (D2 ++ t))) :=
    takeTok_app isDig D1 _ hD1.1 hD1.2 (by simp only [List.headD_cons]; decide)
  have t3 := takeTok_app isUp L2 (D2 ++ t) hL2.1 hL2.2 hD2head
  have t4 := takeTok_app isDig D2 t hD2.1 hD2.2 ht
  simp [matchRange, t1, t2, t3, t4]

/-- The single-cell regex matches a well-formed cell span and stops before
any suffix that does not begin with a digit. -/
theorem matchCell_concat (L D t : List Char)
    (hL : L ≠ [] ∧ ∀ c ∈ L, isUp c = true)
    (hD : D ≠ [] ∧ ∀ c ∈ D, isDig c = true)
    (ht : isDig (t.headD '!') = false) :
    matchCell (L ++ (D ++ t)) = some (L, D) := by
  have hDhead : isUp ((D ++ t).headD '!') = false := by
    obtain ⟨d, Dx, rfl⟩ := List.exists_cons_of_ne_nil hD.1
    simpa using not_up_of_dig (hD.2 d (List.mem_cons_self d Dx))
  have t1 := takeTok_app isUp L (D ++ t) hL.1 hL.2 hDhead
  have t2 := takeTok_app isDig D t hD.1 hD.2 ht
  simp [matchCell, t1, t2]

/-- The range regex fails on a cell span whose suffix starts with neither a
digit nor a colon. -/
theorem matchRange_cell_fails (L D t : List Char)
    (hL : L ≠ [] ∧ ∀ c ∈ L, isUp c = true)
    (hD : D ≠ [] ∧ ∀ c ∈ D, isDig c = true)
    (ht : isDig (t.headD '!') = false) (ht2 : t.headD '!' ≠ ':') :
    matchRange (L ++ (D ++ t)) = none := by
  have hDhead : isUp ((D ++ t).headD '!') = false := by
    obtain ⟨d, Dx, rfl⟩ := List.exists_cons_of_ne_nil hD.1
    simpa using not_up_of_dig (hD.2 d (List.mem_cons_self d Dx))
  have t1 := takeTok_app isUp L (D ++ t) hL.1 hL.2 hDhead
  have t2 := takeTok_app isDig D t hD.1 hD.2 ht
  simp only [matchRange, t1, t2, Option.some_bind]
  cases t with
  | nil => rfl
  | cons c tx =>
    rw [List.headD_cons] at ht2
    simp [ht2]

/-- Claim C10, amended: trailing characters are ignored only when they cannot
extend the greedy span match: appending to a well-formed two-corner span a
suffix that contains no `'!'` and whose first character is an ASCII character
other than a digit, or to a well-formed single cell such a suffix that also
does not start with `':'`, leaves the parse unchanged; a trailing digit (such
as `"A12"` versus its well-formed span front `"A1"`) or a `':'`-continuation
changes the result.  The ASCII bound on the boundary character is required
because Python's `\d` also absorbs non-ASCII Unicode decimal digits into the
row token. -/
theorem trailing_ignored :
    (∀ L1 D1 L2 D2 t : List Char,
      (L1 ≠ [] ∧ ∀ c ∈ L1, isUp c = true) →
      (D1 ≠ [] ∧ ∀ c ∈ D1, isDig c = true) →
      (L2 ≠ [] ∧ ∀ c ∈ L2, isUp c = true) →
      (D2 ≠ [] ∧ ∀ c ∈ D2, isDig c = true) →
      (∀ c ∈ t, c ≠ '!') →
      (t.headD '!').toNat < 128 →
      isDig (t.headD '!') = false →
      parse_a1_to_indices (L1 ++ (D1 ++ (':' :: (L2 ++ (D2 ++ t))))) =
        parse_a1_to_indices (L1 ++ (D1 ++ (':' :: (L2 ++ D2))))) ∧
    (∀ L D t : List Char,
      (L ≠ [] ∧ ∀ c ∈ L, isUp c = true) →
      (D ≠ [] ∧ ∀ c ∈ D, isDig c = true) →
      (∀ c ∈ t, c ≠ '!') →
      (t.headD '!').toNat < 128 →
      isDig (t.headD '!') = false →
      t.headD '!' ≠ ':' →
      parse_a1_to_indices (L ++ (D ++ t)) = parse_a1_to_indices (L ++ D)) := by
  constructor
  · intro L1 D1 L2 D2 t hL1 hD1 hL2 hD2 hbang hascii ht
    have e1 : L1 ++ (D1 ++ (':' :: (L2 ++ (D2 ++ ([] : List Char))))) =
        L1 ++ (D1 ++ (':' :: (L2 ++ D2))) := by simp
    have hc1 := span_no_bang L1 D1 L2 D2 t hL1.2 hD1.2 hL2.2 hD2.2 hbang
    have hc2 := span_no_bang L1 D1 L2 D2 [] hL1.2 hD1.2 hL2.2 hD2.2 (by simp)
    rw [e1] at hc2
    have m1 := matchRange_concat L1 D1 L2 D2 t hL1 hD1 hL2 hD2 ht
    have m2 := matchRange_concat L1 D1 L2 D2 [] hL1 hD1 hL2 hD2 (by decide)
    rw [e1] at m2
    unfold parse_a1_to_indices
    rw [hc1, hc2]
    simp [spanCoords, m1, m2]
  · intro L D t hL hD hbang hascii ht ht2
    have e1 : L ++ (D ++ ([] : List Char)) = L ++ D := by simp
    have hc1 := cell_no_bang L D t hL.2 hD.2 hbang
    have hc2 := cell_no_bang L D [] hL.2 hD.2 (by simp)
    rw [e1] at hc2
    have m1 := matchRange_cell_fails L D t hL hD ht ht2
    have m2 := matchRange_cell_fails L D [] hL hD (by decide) (by decide)
    rw [e1] at m2
    have n1 := matchCell_concat L D t hL hD ht
    have n2 := matchCell_concat L D [] hL hD (by decide)
    rw [e1] at n2
    unfold parse_a1_to_indices
    rw [hc1, hc2]
    simp [spanCoords, m1, m2, n1, n2]

/-- Witness for the amended C10: `"A1:B2xyz"` parses exactly as `"A1:B2"`,
and `"A1x"` exactly as `"A1"`. -/
theorem trailing_ignored_witness :
    parse_a1_to_indices ['A', '1', ':', 'B', '2', 'x', 'y', 'z'] =
      parse_a1_to_indices ['A', '1', ':', 'B', '2'] ∧
    parse_a1_to_indices ['A', '1', 'x'] = parse_a1_to_indices ['A', '1'] := by
  constructor
  · exact trailing_ignored.1 ['A'] ['1'] ['B'] ['2'] ['x', 'y', 'z']
      (by decide) (by decide) (by decide) (by decide) (by decide) (by decide)
      (by decide)
  · exact trailing_ignored.2 ['A'] ['1'] ['x']
      (by decide) (by decide) (by decide) (by decide) (by decide) (by decide)
